import Mathlib

/-!
Verification of the Knowledge Retrieval & Auto-Reply Decision Engine of the
MultiChannelBot repository.  Strings are modelled as lists of characters
(JS strings over BMP code points).  Pure functions of the source
(tokenize, calculateMatchScore, findRelevantEntries, the answer safety
filter, confidence normalization, checkBotNameMentioned, the reply
decision of handleAutoReply, the dedup logic of handleMessageEvent) are
translated directly; database and AI collaborators are passed in as
explicit oracle values (Except-valued where the original call can throw).
-/

namespace MCB

/-- Character-list model of a JS string. -/
abbrev Str := List Char

/-- Literal convenience: underlying character list of a Lean string. -/
def strL (s : String) : Str := s.data

/-! ## Tokenizer (knowledge.service, `tokenize`) -/

/-- Code points stripped by the punctuation regex in `tokenize`. -/
def punctCodes : List Nat :=
  [0xff1f, 0x3f, 0xff01, 0x21, 0x3002, 0xff0c, 0x2c, 0x3001, 0xff1a, 0x3a,
   0xff1b, 0x3b, 0xff08, 0xff09, 0x28, 0x29, 0x300c, 0x300d, 0x300e, 0x300f,
   0x22, 0x27]

/-- Lower-case (ASCII range) then replace punctuation by a space,
per-character translation of the lower-case-then-replace step. -/
def normChar (c : Char) : Char :=
  let lc := c.toLower
  if punctCodes.contains lc.toNat then ' ' else lc

/-- The normalized input string. -/
def clean (text : Str) : Str := text.map normChar

/-- Whitespace for the `split(/\s+/)` step. -/
def isWsC (c : Char) : Bool :=
  c == ' ' || c == '\t' || c == '\n' || c == '\r'

/-- Word accumulator for `splitWs` (current word is kept reversed). -/
def splitWsAux : Str → Str → List Str
  | [], cur => if cur.isEmpty then [] else [cur.reverse]
  | c :: cs, cur =>
    if isWsC c then
      if cur.isEmpty then splitWsAux cs [] else cur.reverse :: splitWsAux cs []
    else splitWsAux cs (c :: cur)

/-- `cleaned.split(/\s+/).filter(w => w.length > 0)`. -/
def splitWs (s : Str) : List Str := splitWsAux s []

/-- The fixed STOP_WORDS set. -/
def stopWords : List Str :=
  [strL "怎麼", strL "如何", strL "什麼", strL "哪裡", strL "為什麼", strL "怎樣",
   strL "哪個", strL "哪些", strL "是什麼", strL "怎麼辦", strL "可以",
   strL "能不能", strL "有沒有", strL "是否", strL "請問", strL "想問",
   strL "請教", strL "想知道", strL "的", strL "了", strL "嗎", strL "呢",
   strL "吧", strL "啊", strL "呀", strL "嘛"]

def isStopWord (w : Str) : Bool := stopWords.contains w

/-- `/[一-龥]/.test(word)` -/
def hasCJK (w : Str) : Bool :=
  w.any (fun c => decide (0x4e00 ≤ c.toNat ∧ c.toNat ≤ 0x9fa5))

/-- All contiguous substrings of length `k` (the sliding-window loops). -/
def ngrams (w : Str) (k : Nat) : List Str :=
  (List.range (w.length - (k - 1))).map (fun i => (w.drop i).take k)

/-- Tokens contributed by one whitespace-separated word: the word itself
(unless a stop word), plus, for words containing a CJK character, the
2/3/4-grams that are not stop words. -/
def wordTokens (w : Str) : List Str :=
  (if isStopWord w then [] else [w]) ++
  (if hasCJK w then
    ((ngrams w 2 ++ ngrams w 3) ++ ngrams w 4).filter (fun s => !isStopWord s)
   else [])

/-- Insertion into the token `Set` (insertion order, no duplicates). -/
def addTok (acc : List Str) (t : Str) : List Str :=
  if t ∈ acc then acc else acc ++ [t]

/-- `tokenize` of the source: normalize, split, collect word tokens into a set. -/
def tokenize (text : Str) : List Str :=
  (splitWs (clean text)).foldl (fun acc w => (wordTokens w).foldl addTok acc) []

/-! ## Lexical scorer (knowledge.service, `calculateMatchScore`) -/

/-- ASCII lower-casing of a string (`toLowerCase`). -/
def lowerStr (s : Str) : Str := s.map Char.toLower

/-- `hay.includes(needle)` (contiguous substring test). -/
def containsSub (hay needle : Str) : Bool :=
  match hay with
  | [] => needle.isEmpty
  | _ :: rest => needle.isPrefixOf hay || containsSub rest needle

/-- Number of non-overlapping occurrences, scanning left to right:
the count of the global regex match of the token in the text, for a token with
no regex metacharacters. -/
def countOccsAux (t : Str) : Str → Nat → Nat
  | [], _ => 0
  | _ :: rest, k + 1 => countOccsAux t rest k
  | c :: rest, 0 =>
    if 1 ≤ t.length && t.isPrefixOf (c :: rest) then
      1 + countOccsAux t rest (t.length - 1)
    else
      countOccsAux t rest 0

def countOccs (t s : Str) : Nat := countOccsAux t s 0

/-- A knowledge entry as selected by the retrieval queries. -/
structure KEntry where
  id : Nat
  question : Str
  answer : Str
  category : Option Str
  keywords : List Str
deriving DecidableEq, Repr

inductive MatchType where
  | question
  | keyword
  | answer
  | none
deriving DecidableEq, Repr

/-- Per-token contribution to the question accumulator. -/
def tokenQuestionScore (e : KEntry) (t : Str) : Nat :=
  if 2 ≤ t.length && containsSub (lowerStr e.question) t then t.length * 4 else 0

/-- Per-token contribution to the keyword accumulator. -/
def tokenKeywordScore (e : KEntry) (t : Str) : Nat :=
  if 2 ≤ t.length &&
      (e.keywords.map lowerStr).any (fun kw => containsSub kw t || containsSub t kw) then
    t.length * 3
  else 0

/-- Per-token contribution to the answer accumulator (occurrences capped at 5). -/
def tokenAnswerScore (e : KEntry) (t : Str) : Nat :=
  if 2 ≤ t.length then t.length * min (countOccs t (lowerStr e.answer)) 5 else 0

/-- State of the scoring loop. -/
structure ScoreAcc where
  qScore : Nat
  kScore : Nat
  aScore : Nat
  matched : List Str
deriving DecidableEq, Repr

def natStr (n : Nat) : Str := (Nat.repr n).data

/-- One iteration of the scoring loop of `calculateMatchScore`: the three
conditional field updates of the loop body, with the match tags appended
in source order (question, keyword, answer). -/
def scoreStep (e : KEntry) (acc : ScoreAcc) (token : Str) : ScoreAcc :=
  if token.length < 2 then acc
  else
    let qHit := containsSub (lowerStr e.question) token
    let kHit := (e.keywords.map lowerStr).any
      (fun kw => containsSub kw token || containsSub token kw)
    let m := countOccs token (lowerStr e.answer)
    { qScore := acc.qScore + (if qHit then token.length * 4 else 0)
      kScore := acc.kScore + (if kHit then token.length * 3 else 0)
      aScore := acc.aScore + (if m > 0 then token.length * min m 5 else 0)
      matched := ((acc.matched ++
        (if qHit then [strL "Q:" ++ token] else [])) ++
        (if kHit then [strL "K:" ++ token] else [])) ++
        (if m > 0 then [strL "A:" ++ token ++ strL "x" ++ natStr m] else []) }

structure MatchScore where
  score : Nat
  matchType : MatchType
  matchedTokens : List Str
deriving DecidableEq, Repr

/-- `calculateMatchScore` of the source. -/
def calculateMatchScore (queryTokens : List Str) (e : KEntry) : MatchScore :=
  let acc := queryTokens.foldl (scoreStep e) ⟨0, 0, 0, []⟩
  let maxScore := max acc.qScore (max acc.kScore acc.aScore)
  if maxScore = 0 then ⟨0, MatchType.none, []⟩
  else
    let mt := if acc.qScore = maxScore then MatchType.question
              else if acc.kScore = maxScore then MatchType.keyword
              else MatchType.answer
    ⟨acc.qScore + acc.kScore + acc.aScore, mt, acc.matched⟩

/-! ## Lexical retrieval (knowledge.service, `findRelevantEntries` and the
keyword branch of `answerQuestion`) -/

structure ScoredEntry where
  entry : KEntry
  score : Nat
deriving DecidableEq, Repr

/-- Stable insertion for descending-by-score order (the comparator
`(a, b) => b.score - a.score` under a stable `Array.sort`). -/
def insertDesc (x : ScoredEntry) : List ScoredEntry → List ScoredEntry
  | [] => [x]
  | y :: ys => if y.score ≤ x.score then x :: y :: ys else y :: insertDesc x ys

/-- Stable sort, descending by score. -/
def sortDesc : List ScoredEntry → List ScoredEntry
  | [] => []
  | x :: xs => insertDesc x (sortDesc xs)

/-- `findRelevantEntries`: score every entry, keep positive scores, sort by
score descending (stable), truncate to `maxResults`. -/
def findRelevantEntries (query : Str) (entries : List KEntry) (maxResults : Nat) :
    List ScoredEntry :=
  let queryTokens := tokenize query
  let scored := entries.map (fun e => ⟨e, (calculateMatchScore queryTokens e).score⟩)
  (sortDesc (scored.filter (fun se => se.score > 0))).take maxResults

/-- The `entriesToUse` computation of the keyword branch of `answerQuestion`:
the top relevant entries truncated to 5, or — when nothing scored
positively — the first 5 loaded entries. -/
def keywordCandidates (query : Str) (entries : List KEntry) : List KEntry :=
  let rel := findRelevantEntries query entries 10
  if rel.length > 0 then (rel.take 5).map (fun se => se.entry) else entries.take 5

/-! ## Answer safety filter (inline in `answerQuestion`) -/

/-- Result of `generateAnswerWithFallback`. -/
structure GenResult where
  answer : Str
  confidence : Int
  sources : List Nat
  canAnswer : Bool
deriving DecidableEq, Repr

/-- Count of the characters matched by the question-mark regex. -/
def questionMarkCount (s : Str) : Nat :=
  s.countP (fun c => c == Char.ofNat 0xff1f || c == Char.ofNat 0x3f)

/-- Count of the characters matched by the bullet regex. -/
def bulletCount (s : Str) : Nat :=
  s.countP (fun c => c == Char.ofNat 0x2022 || c == Char.ofNat 0xb7)

/-- The post-hoc veto on generator output: if the answer looks like a list
of counter-questions, force `canAnswer := false` and `confidence := 0`. -/
def applySafetyFilter (r : GenResult) : GenResult :=
  if r.canAnswer && !r.answer.isEmpty then
    if 3 ≤ questionMarkCount r.answer || 5 ≤ bulletCount r.answer then
      { r with canAnswer := false, confidence := 0 }
    else r
  else r

/-! ## `answerQuestion` with explicit collaborator oracles -/

structure AnswerResult where
  answer : Str
  confidence : Int
  sources : List Nat
  canAnswer : Bool
  isGenerated : Bool
deriving DecidableEq, Repr

/-- The conservative result returned on early exit and on any caught error. -/
def noAnswer : AnswerResult := ⟨[], 0, [], false, false⟩

/-- One vector-search hit of `searchByVector`. -/
structure VectorHit where
  id : Nat
  question : Str
  answer : Str
  category : Option Str
  similarity : Int
deriving DecidableEq, Repr

/-- Group settings consulted at the top of `answerQuestion`. -/
structure GroupKnowledge where
  knowledgeCategories : List Str
  autoReplyEnabled : Bool
deriving DecidableEq, Repr

/-- Collaborators of `answerQuestion`.  An `Except.error` value stands for
a rejected promise at the corresponding call site. -/
structure KnowledgeOracles where
  groupLookup : Except Unit (Option GroupKnowledge)
  embeddedCount : Except Unit Nat
  vectorSearch : Option (List Str) → Except Unit (List VectorHit)
  findEntries : Option (List Str) → Except Unit (List KEntry)
  generate : List KEntry → Except Unit GenResult
  usageUpdate : Nat → Except Unit Unit

/-- The inner try of the vector path: on any error the results stay empty
and the flow falls through to keyword search. -/
def vectorResultsOf (o : KnowledgeOracles) (cats : Option (List Str)) : List VectorHit :=
  match o.embeddedCount with
  | .error _ => []
  | .ok n =>
    if n > 0 then
      match o.vectorSearch cats with
      | .error _ => []
      | .ok hits => hits
    else []

/-- Per-source usage-count increments.  Each promise carries its own
swallow-errors catch handler, so the outcomes are collected and discarded. -/
def runUsageUpdates (o : KnowledgeOracles) (r : GenResult) : List (Except Unit Unit) :=
  if r.canAnswer && r.sources.length > 0 then r.sources.map o.usageUpdate else []

/-- Generation step: AI call, safety filter, best-effort usage updates. -/
def finishGeneration (o : KnowledgeOracles) (entriesToUse : List KEntry) :
    Except Unit AnswerResult :=
  match o.generate entriesToUse with
  | .error e => .error e
  | .ok gen =>
    let filtered := applySafetyFilter gen
    let _usageOutcomes := runUsageUpdates o filtered
    .ok ⟨filtered.answer, filtered.confidence, filtered.sources, filtered.canAnswer, true⟩

/-- Body of the try block of `answerQuestion`: vector path first, keyword
fallback otherwise; an uncaught throw surfaces as `Except.error`. -/
def tryBody (o : KnowledgeOracles) (query : Str) (cats : Option (List Str)) :
    Except Unit AnswerResult :=
  let vectorResults := vectorResultsOf o cats
  if vectorResults.length > 0 then
    finishGeneration o
      (vectorResults.map (fun h => (⟨h.id, h.question, h.answer, h.category, []⟩ : KEntry)))
  else
    match o.findEntries cats with
    | .error e => .error e
    | .ok entries =>
      if entries.length = 0 then .ok noAnswer
      else finishGeneration o (keywordCandidates query entries)

/-- The try/catch around the body: every error maps to the conservative
result. -/
def answerQuestionBody (o : KnowledgeOracles) (query : Str) (cats : Option (List Str)) :
    AnswerResult :=
  match tryBody o query cats with
  | .ok r => r
  | .error _ => noAnswer

/-- `answerQuestion(query, groupId?)`.  The group lookup sits before the
try block, so only its failure can escape. -/
def answerQuestionE (o : KnowledgeOracles) (query : Str) (hasGroupId : Bool) :
    Except Unit AnswerResult :=
  if hasGroupId then
    match o.groupLookup with
    | .error e => .error e
    | .ok (some g) =>
      if !g.autoReplyEnabled then .ok noAnswer
      else
        .ok (answerQuestionBody o query
          (if 0 < g.knowledgeCategories.length then some g.knowledgeCategories else none))
    | .ok none => .ok (answerQuestionBody o query none)
  else .ok (answerQuestionBody o query none)

/-! ## Conversation analysis confidence normalization
(webhook routes, `analyzeConversationWithAI`) -/

/-- `Math.round` on the values reachable here (round half away from zero
is round half up on nonnegative input). -/
def jsRound (x : ℚ) : ℤ := ⌊x + 1 / 2⌋

/-- The normalization applied to the confidence reported by
`analyzeConversation`: fractions in (0, 1] are rescaled to 0-100. -/
def normalizeConfidence (c : ℚ) : ℚ :=
  if 0 < c ∧ c ≤ 1 then ((jsRound (c * 100) : ℤ) : ℚ) else c

/-! ## Reply decision engine (webhook routes, `handleAutoReply`) -/

inductive SentimentT where
  | positive
  | neutral
  | negative
deriving DecidableEq, Repr

/-- Settings consulted by `handleAutoReply` (`bot.autoReply`, `bot.name`,
`bot.confidenceThreshold`, `bot.notFoundReply`). -/
structure BotSettings where
  autoReply : Bool
  botName : Option Str
  confidenceThreshold : Int
  notFoundReplySetting : Option Str
deriving DecidableEq, Repr

/-- The built-in apology fallback text. -/
def defaultNotFoundReply : Str := strL "抱歉，我目前無法回答這個問題。請稍候，會有專人為您服務。"

/-- The configured not-found reply, with the built-in default applied when
the setting is absent or empty (empty string is falsy in JS). -/
def notFoundReplyOf (s : BotSettings) : Str :=
  match s.notFoundReplySetting with
  | some t => if t.isEmpty then defaultNotFoundReply else t
  | none => defaultNotFoundReply

/-- Group row consulted by `handleAutoReply` -/
structure GroupInfo where
  customerId : Option Nat
  autoReplyEnabled : Bool
deriving DecidableEq, Repr

/-- Output of `analyzeConversationWithAI` as consumed by the engine. -/
structure ConvAnalysis where
  hasUnansweredQuestion : Bool
  unansweredQuestions : List Str
  confidence : Int
  summary : Str
  sentiment : SentimentT
deriving DecidableEq, Repr

/-- Non-null result of `searchKnowledge` for one question. -/
structure SearchResultT where
  entryId : Nat
  entryAnswer : Str
  confidence : Int
  generatedAnswer : Str
deriving DecidableEq, Repr

/-- The collaborators of one `handleAutoReply` run, resolved to values. -/
structure AutoReplyEnv where
  settings : BotSettings
  group : Option GroupInfo
  analysis : ConvAnalysis
  search : Str → Option SearchResultT

/-- JS `s.split(sep)` for a one-character separator (keeps empty pieces). -/
def splitOnChar (sep : Char) (s : Str) : List Str :=
  let r := s.foldl
    (fun (acc : List Str × Str) c =>
      if c == sep then (acc.1 ++ [acc.2], []) else (acc.1, acc.2 ++ [c]))
    ([], [])
  r.1 ++ [r.2]

/-- JS `s.trim()` (on the whitespace alphabet used here). -/
def trimStr (s : Str) : Str :=
  ((s.dropWhile isWsC).reverse.dropWhile isWsC).reverse

/-- `checkBotNameMentioned`: case-insensitive literal substring match
against the comma-separated configured name list. -/
def checkBotNameMentioned (content : Str) (botName : Option Str) : Bool :=
  match botName with
  | none => false
  | some bn =>
    if (trimStr bn).isEmpty then false
    else
      let names := ((splitOnChar ',' bn).map trimStr).filter (fun n => n.length > 0)
      let contentLower := lowerStr content
      names.any (fun n => containsSub contentLower (lowerStr n))

/-- Outcome of the question-detection phase (Steps 1-2). -/
structure Phase1 where
  botNameMentioned : Bool
  isQuestion : Bool
  questionConfidence : Int
  questionSummary : Str
  sentiment : SentimentT
  extractedQuestion : Str
  unanswered : List Str
  shouldProcess : Bool
deriving Repr

/-- Steps 1-2 of `handleAutoReply`: bot-name keyword check, then either
forced engagement (mention or private chat) or conversation analysis. -/
def analysisPhase (env : AutoReplyEnv) (question : Str) (isPrivateChat : Bool) : Phase1 :=
  let mentioned := checkBotNameMentioned question env.settings.botName
  if !mentioned && !isPrivateChat then
    let a := env.analysis
    let extracted :=
      match a.unansweredQuestions with
      | q :: _ => if q.isEmpty then question else q
      | [] => question
    { botNameMentioned := mentioned
      isQuestion := a.hasUnansweredQuestion
      questionConfidence := a.confidence
      questionSummary := if a.summary.isEmpty then question else a.summary
      sentiment := a.sentiment
      extractedQuestion := extracted
      unanswered := a.unansweredQuestions
      shouldProcess := a.hasUnansweredQuestion &&
        env.settings.confidenceThreshold ≤ a.confidence }
  else
    { botNameMentioned := mentioned
      isQuestion := true
      questionConfidence := 100
      questionSummary := question
      sentiment := SentimentT.neutral
      extractedQuestion := question
      unanswered := []
      shouldProcess := true }

/-- `unansweredQuestions.slice(-3)`. -/
def lastN (n : Nat) (l : List Str) : List Str := l.drop (l.length - n)

/-- The questions resolved in Step 3 (latest 3 when several, else the one
extracted question). -/
def questionsToSearch (env : AutoReplyEnv) (question : Str) (isPrivateChat : Bool) :
    List Str :=
  let p := analysisPhase env question isPrivateChat
  if p.unanswered.length > 1 then lastN 3 p.unanswered else [p.extractedQuestion]

structure AnsweredPart where
  question : Str
  answer : Str
  knowledgeId : Nat
  confidence : Int
deriving DecidableEq, Repr

/-- The questions whose knowledge match reached the threshold, with the
answer text (`generatedAnswer || entry.answer`). -/
def answeredPartsOf (env : AutoReplyEnv) (qs : List Str) : List AnsweredPart :=
  qs.filterMap (fun q =>
    match env.search q with
    | some r =>
      if env.settings.confidenceThreshold ≤ r.confidence then
        some ⟨q, (if r.generatedAnswer.isEmpty then r.entryAnswer else r.generatedAnswer),
              r.entryId, r.confidence⟩
      else none
    | none => none)

/-- The questions without a good-enough match. -/
def unansweredPartsOf (env : AutoReplyEnv) (qs : List Str) : List Str :=
  qs.filterMap (fun q =>
    match env.search q with
    | some r => if env.settings.confidenceThreshold ≤ r.confidence then none else some q
    | none => some q)

/-- `Math.max(...confidences, 0)`. -/
def bestConfidenceOf (env : AutoReplyEnv) (qs : List Str) : Int :=
  (qs.map (fun q => (env.search q).elim 0 (fun r => r.confidence))).foldl max 0

def joinSep (sep : Str) : List Str → Str
  | [] => []
  | [x] => x
  | x :: y :: xs => x ++ sep ++ joinSep sep (y :: xs)

/-- The numbered multi-question reply block. -/
def composeMulti (answered : List AnsweredPart) (unanswered : List Str)
    (notFound : Str) : Str :=
  let parts := answered.map (fun ap => (ap.question, ap.answer)) ++
    unanswered.map (fun q => (q, notFound))
  joinSep (strL "\n\n")
    (parts.enum.map (fun p =>
      strL "【問題" ++ natStr (p.1 + 1) ++ strL "】" ++ p.2.1 ++ strL "\n" ++ p.2.2))

structure LogEntry where
  question : Str
  answer : Option Str
  knowledgeId : Option Nat
  matched : Bool
  confidence : Int
deriving DecidableEq, Repr

structure IssuePayload where
  summary : Str
  sentiment : SentimentT
  autoReplied : Bool
  autoReplyAnswer : Option Str
  confidence : Option Int
deriving DecidableEq, Repr

/-- The externally visible effects of one `handleAutoReply` run. -/
structure AutoReplyOutcome where
  reply : Option Str
  log : Option LogEntry
  issue : Option IssuePayload
deriving DecidableEq, Repr

def noOutcome : AutoReplyOutcome := ⟨none, none, none⟩

/-- Steps 3-5 of `handleAutoReply` (search, reply decision, composition,
logging, issue creation), reached once the message is to be processed. -/
def replyPhase (env : AutoReplyEnv) (question : Str) (isPrivateChat : Bool)
    (replyToken : Option Str) : AutoReplyOutcome :=
  let p := analysisPhase env question isPrivateChat
  let threshold := env.settings.confidenceThreshold
  let qs := questionsToSearch env question isPrivateChat
  let notFoundReply := notFoundReplyOf env.settings
  let answeredParts := answeredPartsOf env qs
  let unansweredParts := unansweredPartsOf env qs
  let bestConfidence := bestConfidenceOf env qs
  let hasAnyAnswer := answeredParts.length > 0
  let shouldReply := hasAnyAnswer || p.botNameMentioned || isPrivateChat
  let step4 : Bool × Option Str × Option LogEntry :=
    if shouldReply then
      match replyToken with
      | some _ =>
        if h : answeredParts.length > 0 then
          let total := answeredParts.length + unansweredParts.length
          let replyText :=
            if total > 1 then composeMulti answeredParts unansweredParts notFoundReply
            else (answeredParts.head (List.length_pos.mp h)).answer
          (true, some replyText,
           some ⟨joinSep (strL " | ") qs, some replyText,
                 some (answeredParts.head (List.length_pos.mp h)).knowledgeId, true, bestConfidence⟩)
        else
          if p.botNameMentioned || isPrivateChat then
            (true, some notFoundReply,
             some ⟨question, some notFoundReply, none, false, 0⟩)
          else (false, none, none)
      | none => (false, none, none)
    else
      (false, none, some ⟨question, none, none, false, bestConfidence⟩)
  let didReply := step4.1
  let replyAnswer := step4.2.1
  let issue :=
    if p.isQuestion && threshold ≤ p.questionConfidence then
      some (⟨p.questionSummary, p.sentiment, didReply,
             (match replyAnswer with
              | some a => if a.isEmpty then none else some a
              | none => none),
             some p.questionConfidence⟩ : IssuePayload)
    else none
  ⟨replyAnswer, step4.2.2, issue⟩

/-- `handleAutoReply`: group-level disable check, question detection,
global toggle, noise filter, then the reply phase. -/
def handleAutoReply (env : AutoReplyEnv) (question : Str) (isPrivateChat : Bool)
    (replyToken : Option Str) : AutoReplyOutcome :=
  if env.group.elim false (fun g => !g.autoReplyEnabled) then noOutcome
  else
    let p := analysisPhase env question isPrivateChat
    if !env.settings.autoReply then
      if p.isQuestion && env.settings.confidenceThreshold ≤ p.questionConfidence then
        { noOutcome with
          issue := some ⟨p.questionSummary, p.sentiment, false, none, none⟩ }
      else noOutcome
    else if !p.shouldProcess then noOutcome
    else replyPhase env question isPrivateChat replyToken

/-! ## Message event handling (webhook routes, `handleMessageEvent`).
The database is projected onto the identifiers relevant to the webhook
flow: which groups/members exist and which LINE message ids are stored. -/

inductive MsgSource where
  | group (gid : Str)
  | room (rid : Str)
  | user
deriving DecidableEq, Repr

inductive MsgKind where
  | text (content : Str)
  | image
  | video
  | audio
  | file
  | sticker
  | location
  | other
deriving DecidableEq, Repr

structure LineEvent where
  source : MsgSource
  userId : Option Str
  messageId : Str
  kind : MsgKind
  replyToken : Option Str
deriving DecidableEq, Repr

structure StoredMessage where
  lineMessageId : Str
  content : Option Str
  groupKey : Str
deriving DecidableEq, Repr

structure DBState where
  groups : List Str
  members : List Str
  messages : List StoredMessage
deriving DecidableEq, Repr

/-- `handleMessageEvent`: ensure group/member rows, then — before storing
the message and before any decision run — skip entirely when the LINE
message id is already stored (LINE may redeliver). -/
def handleMessageEvent (env : AutoReplyEnv) (ev : LineEvent) (st : DBState) :
    DBState × AutoReplyOutcome :=
  match ev.userId with
  | none => (st, noOutcome)
  | some uid =>
    let gk : Str × Bool :=
      match ev.source with
      | .group g => (g, false)
      | .room r => (r, false)
      | .user => (strL "user_" ++ uid, true)
    let groupKey := gk.1
    let isPrivateChat := gk.2
    let st1 : DBState :=
      { st with
        groups := if groupKey ∈ st.groups then st.groups else st.groups ++ [groupKey]
        members := if uid ∈ st.members then st.members else st.members ++ [uid] }
    let content : Option Str := match ev.kind with | .text c => some c | _ => none
    if (st1.messages.map (fun m => m.lineMessageId)).contains ev.messageId then
      (st1, noOutcome)
    else
      let st2 : DBState :=
        { st1 with messages := st1.messages ++ [⟨ev.messageId, content, groupKey⟩] }
      match content with
      | some c => (st2, handleAutoReply env c isPrivateChat ev.replyToken)
      | none => (st2, noOutcome)

/-! ## Theorems -/

/-- C2: for every generator result with `canAnswer = true` and a non-empty
answer, the safety filter forces `canAnswer = false` and `confidence = 0`
exactly when the answer holds at least 3 question-mark characters
(fullwidth or ASCII) or at least 5 bullet-marker characters, and it never
modifies the answer text; an answer with exactly 3 question marks and 0
bullets is rejected, one with 2 question marks and 4 bullets is accepted,
and one with 2 question marks and 5 bullets is rejected. -/
theorem safety_filter_veto_rule :
    (∀ r : GenResult, r.canAnswer = true → r.answer ≠ [] →
      (((applySafetyFilter r).canAnswer = false ∧ (applySafetyFilter r).confidence = 0) ↔
        (3 ≤ questionMarkCount r.answer ∨ 5 ≤ bulletCount r.answer))) ∧
    (∀ r : GenResult, (applySafetyFilter r).answer = r.answer) ∧
    (questionMarkCount (strL "a？b？c？") = 3 ∧ bulletCount (strL "a？b？c？") = 0 ∧
      (applySafetyFilter ⟨strL "a？b？c？", 80, [1], true⟩).canAnswer = false) ∧
    (questionMarkCount (strL "a？b？•·•·") = 2 ∧ bulletCount (strL "a？b？•·•·") = 4 ∧
      applySafetyFilter ⟨strL "a？b？•·•·", 80, [1], true⟩ =
        ⟨strL "a？b？•·•·", 80, [1], true⟩) ∧
    (questionMarkCount (strL "a？b？•·•·•") = 2 ∧ bulletCount (strL "a？b？•·•·•") = 5 ∧
      (applySafetyFilter ⟨strL "a？b？•·•·•", 80, [1], true⟩).canAnswer = false) := by
  refine ⟨?_, ?_, by decide, by decide, by decide⟩
  · intro r h1 h2
    have he : r.answer.isEmpty = false := by
      cases h : r.answer with
      | nil => exact absurd h h2
      | cons a as => rfl
    simp only [applySafetyFilter, h1, he, Bool.not_false, Bool.and_self, if_true]
    split_ifs with hc
    · simp only [Bool.or_eq_true, decide_eq_true_eq] at hc
      simp [hc]
    · simp only [Bool.or_eq_true, decide_eq_true_eq] at hc
      push_neg at hc
      constructor
      · rintro ⟨hca, -⟩
        rw [h1] at hca
        exact absurd hca (by simp)
      · intro h
        rcases h with h | h
        · omega
        · omega
  · intro r
    unfold applySafetyFilter
    split_ifs <;> rfl

/-- C2 witness: the veto rule applied at a concrete rejected answer. -/
theorem safety_filter_veto_rule_witness :
    ((applySafetyFilter ⟨strL "？？？", 70, [], true⟩).canAnswer = false ∧
      (applySafetyFilter ⟨strL "？？？", 70, [], true⟩).confidence = 0) :=
  (safety_filter_veto_rule.1 ⟨strL "？？？", 70, [], true⟩ (by decide) (by decide)).mpr
    (by decide)

/-- C7: the conversation analyzer normalizes a reported confidence in
(0, 1] by multiplying by 100 and rounding (so 1.0 becomes 100), while
values greater than 1 and the value 0 are left unchanged. -/
theorem confidence_normalization_rule :
    ∀ c : ℚ,
      (0 < c → c ≤ 1 → normalizeConfidence c = ((jsRound (c * 100) : ℤ) : ℚ)) ∧
      (1 < c → normalizeConfidence c = c) ∧
      normalizeConfidence 0 = 0 ∧
      normalizeConfidence 1 = 100 := by
  intro c
  refine ⟨fun h1 h2 => ?_, fun h => ?_, ?_, ?_⟩
  · rw [normalizeConfidence, if_pos ⟨h1, h2⟩]
  · rw [normalizeConfidence, if_neg]
    rintro ⟨-, h2⟩
    linarith
  · norm_num [normalizeConfidence]
  · rw [normalizeConfidence, if_pos ⟨by norm_num, le_refl 1⟩]
    have h : jsRound ((1 : ℚ) * 100) = 100 := by
      rw [jsRound, Int.floor_eq_iff]
      norm_num
    rw [h]
    norm_num

/-- C7 witness: the normalization rule applied at the concrete value 1/2. -/
theorem confidence_normalization_rule_witness :
    normalizeConfidence (1 / 2) = ((jsRound ((1 / 2 : ℚ) * 100) : ℤ) : ℚ) :=
  (confidence_normalization_rule (1 / 2)).1 (by norm_num) (by norm_num)

/-- C4 counterexample: for the token "ab" (length 2), an entry whose
question text holds the token (and nothing else does) gains 8 points,
while an otherwise identical entry whose answer text holds the token 5
times gains 10 points, so the question contribution is NOT at least the
answer contribution for every occurrence count. -/
theorem question_weight_counterexample :
    (calculateMatchScore [strL "ab"] ⟨1, strL "ab", [], none, []⟩).score = 8 ∧
    (calculateMatchScore [strL "ab"] ⟨2, [], strL "ababababab", none, []⟩).score = 10 ∧
    countOccs (strL "ab") (lowerStr (strL "ababababab")) = 5 ∧
    ¬(10 ≤ 8) := by decide

/-- Sum of the three per-token contributions. -/
def tokenContribution (e : KEntry) (t : Str) : Nat :=
  tokenQuestionScore e t + tokenKeywordScore e t + tokenAnswerScore e t

/-- C4 amended: a token occurring in the question text contributes at
least as much as the same token occurring only in the answer text
provided its occurrence count in that answer is at most 4; with 5 or more
occurrences the answer contribution (length x 5) exceeds the question
contribution (length x 4). -/
theorem question_vs_answer_contribution (t : Str) (e1 e2 : KEntry)
    (hq : containsSub (lowerStr e1.question) t = true)
    (hocc : countOccs t (lowerStr e2.answer) ≤ 4)
    (hq2 : containsSub (lowerStr e2.question) t = false)
    (hk2 : (e2.keywords.map lowerStr).any
      (fun kw => containsSub kw t || containsSub t kw) = false) :
    tokenContribution e2 t ≤ tokenContribution e1 t := by
  unfold tokenContribution tokenQuestionScore tokenKeywordScore tokenAnswerScore
  rw [hq, hq2, hk2]
  simp only [Bool.and_false, Bool.false_and, Bool.false_eq_true, if_false, Bool.and_true,
    zero_add]
  by_cases hl : 2 ≤ t.length
  · have h2 : t.length * min (countOccs t (lowerStr e2.answer)) 5 ≤ t.length * 4 :=
      Nat.mul_le_mul_left _ (by omega)
    simp only [hl, if_true, decide_eq_true_eq]
    exact le_trans h2 (le_trans (Nat.le_add_right _ _) (Nat.add_le_add_right (Nat.le_add_right _ _) _))
  · simp [hl]

/-- C4 amended witness: concrete token and entries with 2 answer
occurrences. -/
theorem question_vs_answer_contribution_witness :
    tokenContribution ⟨2, [], strL "abab", none, []⟩ (strL "ab") ≤
      tokenContribution ⟨1, strL "ab", [], none, []⟩ (strL "ab") :=
  question_vs_answer_contribution (strL "ab") ⟨1, strL "ab", [], none, []⟩
    ⟨2, [], strL "abab", none, []⟩ (by decide) (by decide) (by decide) (by decide)

/-- C3 counterexample: with one active entry that matches nothing, the
vector path empty, the list handed to the answer generator is the first 5
raw entries — here an entry with `totalScore = 0` — not only entries with
positive score. -/
theorem keyword_fallback_counterexample :
    keywordCandidates (strL "xy") [⟨1, strL "qq", strL "aa", none, []⟩] =
      [⟨1, strL "qq", strL "aa", none, []⟩] ∧
    (calculateMatchScore (tokenize (strL "xy")) ⟨1, strL "qq", strL "aa", none, []⟩).score
      = 0 := by decide

theorem mem_insertDesc {x y : ScoredEntry} {l : List ScoredEntry} :
    x ∈ insertDesc y l ↔ x = y ∨ x ∈ l := by
  induction l with
  | nil => simp [insertDesc]
  | cons z zs ih =>
    rw [insertDesc]
    split_ifs with h
    · simp
    · simp only [List.mem_cons, ih]
      tauto

theorem mem_sortDesc {x : ScoredEntry} {l : List ScoredEntry} :
    x ∈ sortDesc l ↔ x ∈ l := by
  induction l with
  | nil => simp [sortDesc]
  | cons z zs ih =>
    rw [sortDesc]
    simp only [mem_insertDesc, ih, List.mem_cons]

theorem insertDesc_sorted {x : ScoredEntry} {l : List ScoredEntry}
    (h : l.Pairwise (fun a b => b.score ≤ a.score)) :
    (insertDesc x l).Pairwise (fun a b => b.score ≤ a.score) := by
  induction l with
  | nil => simp [insertDesc]
  | cons z zs ih =>
    rw [insertDesc]
    rcases List.pairwise_cons.mp h with ⟨hz, hzs⟩
    split_ifs with hc
    · refine List.pairwise_cons.mpr ⟨?_, h⟩
      intro a ha
      rcases List.mem_cons.mp ha with rfl | ha
      · exact hc
      · exact le_trans (hz a ha) hc
    · refine List.pairwise_cons.mpr ⟨?_, ih hzs⟩
      intro a ha
      rcases mem_insertDesc.mp ha with rfl | ha
      · omega
      · exact hz a ha

theorem length_insertDesc (x : ScoredEntry) (l : List ScoredEntry) :
    (insertDesc x l).length = l.length + 1 := by
  induction l with
  | nil => rfl
  | cons z zs ih =>
    rw [insertDesc]
    split_ifs <;> simp [ih]

theorem length_sortDesc (l : List ScoredEntry) : (sortDesc l).length = l.length := by
  induction l with
  | nil => rfl
  | cons z zs ih => rw [sortDesc, length_insertDesc, ih, List.length_cons]

theorem sortDesc_sorted (l : List ScoredEntry) :
    (sortDesc l).Pairwise (fun a b => b.score ≤ a.score) := by
  induction l with
  | nil => simp [sortDesc]
  | cons z zs ih => exact insertDesc_sorted ih

/-- Facts about members of the relevant-entry list. -/
theorem mem_findRelevantEntries {query : Str} {entries : List KEntry}
    {m : Nat} {se : ScoredEntry} (h : se ∈ findRelevantEntries query entries m) :
    se.entry ∈ entries ∧
    se.score = (calculateMatchScore (tokenize query) se.entry).score ∧
    0 < se.score := by
  unfold findRelevantEntries at h
  have h1 := (List.take_sublist m _).subset h
  rw [mem_sortDesc, List.mem_filter] at h1
  rcases h1 with ⟨h2, h3⟩
  rcases List.mem_map.mp h2 with ⟨e, he, rfl⟩
  refine ⟨he, rfl, by simpa using h3⟩

/-- C3 corrected: when the vector path yields nothing and at least one
active entry has positive lexical score, the candidate list handed to the
generator is the positive-score list sorted descending, capped at 10 and
then truncated to 5; when no entry has positive score, the first 5 loaded
entries are handed over regardless of score. -/
theorem keyword_candidates_rule (query : Str) (entries : List KEntry) :
    ((∃ e ∈ entries, 0 < (calculateMatchScore (tokenize query) e).score) →
      (∀ e ∈ keywordCandidates query entries,
        0 < (calculateMatchScore (tokenize query) e).score) ∧
      (keywordCandidates query entries).Pairwise
        (fun a b => (calculateMatchScore (tokenize query) b).score ≤
          (calculateMatchScore (tokenize query) a).score) ∧
      (keywordCandidates query entries).length ≤ 5 ∧
      keywordCandidates query entries =
        ((findRelevantEntries query entries 10).take 5).map (fun se => se.entry)) ∧
    ((∀ e ∈ entries, (calculateMatchScore (tokenize query) e).score = 0) →
      keywordCandidates query entries = entries.take 5) := by
  constructor
  · rintro ⟨e, he, hpos⟩
    have hf : (⟨e, (calculateMatchScore (tokenize query) e).score⟩ : ScoredEntry) ∈
        (entries.map (fun e => (⟨e, (calculateMatchScore (tokenize query) e).score⟩ :
          ScoredEntry))).filter (fun se => se.score > 0) := by
      rw [List.mem_filter]
      exact ⟨List.mem_map.mpr ⟨e, he, rfl⟩, by simpa using hpos⟩
    have hflen : 0 < ((entries.map (fun e => (⟨e,
        (calculateMatchScore (tokenize query) e).score⟩ : ScoredEntry))).filter
        (fun se => se.score > 0)).length := List.length_pos_of_mem hf
    have hrlen : 0 < (findRelevantEntries query entries 10).length := by
      simp only [findRelevantEntries, List.length_take, length_sortDesc]
      omega
    have hbranch : keywordCandidates query entries =
        ((findRelevantEntries query entries 10).take 5).map (fun se => se.entry) := by
      unfold keywordCandidates
      rw [if_pos hrlen]
    have hsorted : (findRelevantEntries query entries 10).Pairwise
        (fun a b => b.score ≤ a.score) := by
      simp only [findRelevantEntries]
      exact List.Pairwise.sublist (List.take_sublist _ _) (sortDesc_sorted _)
    have h5 : ((findRelevantEntries query entries 10).take 5).Pairwise
        (fun a b => b.score ≤ a.score) :=
      List.Pairwise.sublist (List.take_sublist _ _) hsorted
    refine ⟨?_, ?_, ?_, hbranch⟩
    · intro x hx
      rw [hbranch] at hx
      rcases List.mem_map.mp hx with ⟨se, hse, rfl⟩
      have hm := mem_findRelevantEntries ((List.take_sublist 5 _).subset hse)
      rw [← hm.2.1]
      exact hm.2.2
    · rw [hbranch, List.pairwise_map]
      refine h5.imp_of_mem ?_
      intro a b ha hb hab
      have ha2 := mem_findRelevantEntries ((List.take_sublist 5 _).subset ha)
      have hb2 := mem_findRelevantEntries ((List.take_sublist 5 _).subset hb)
      rw [← ha2.2.1, ← hb2.2.1]
      exact hab
    · rw [hbranch, List.length_map]
      exact le_trans (List.length_take_le _ _) (le_refl 5)
  · intro hzero
    have hf : (entries.map (fun e => (⟨e,
        (calculateMatchScore (tokenize query) e).score⟩ : ScoredEntry))).filter
        (fun se => se.score > 0) = [] := by
      rw [List.filter_eq_nil_iff]
      intro a ha
      rcases List.mem_map.mp ha with ⟨e2, he2, rfl⟩
      simp [hzero e2 he2]
    simp only [keywordCandidates, findRelevantEntries]
    rw [hf]
    simp [sortDesc]

/-- C3 amended witness: one positively scoring entry is handed over as
the sorted positive-score candidate list. -/
theorem keyword_candidates_rule_witness :
    (∀ e ∈ keywordCandidates (strL "ab") [⟨1, strL "ab", [], none, []⟩],
      0 < (calculateMatchScore (tokenize (strL "ab")) e).score) ∧
    (keywordCandidates (strL "ab") [⟨1, strL "ab", [], none, []⟩]).Pairwise
      (fun a b => (calculateMatchScore (tokenize (strL "ab")) b).score ≤
        (calculateMatchScore (tokenize (strL "ab")) a).score) ∧
    (keywordCandidates (strL "ab") [⟨1, strL "ab", [], none, []⟩]).length ≤ 5 ∧
    keywordCandidates (strL "ab") [⟨1, strL "ab", [], none, []⟩] =
      ((findRelevantEntries (strL "ab") [⟨1, strL "ab", [], none, []⟩] 10).take 5).map
        (fun se => se.entry) :=
  (keyword_candidates_rule (strL "ab") [⟨1, strL "ab", [], none, []⟩]).1
    ⟨⟨1, strL "ab", [], none, []⟩, by decide, by decide⟩

theorem scoreStep_scores (e : KEntry) (acc : ScoreAcc) (t : Str) :
    (scoreStep e acc t).qScore = acc.qScore + tokenQuestionScore e t ∧
    (scoreStep e acc t).kScore = acc.kScore + tokenKeywordScore e t ∧
    (scoreStep e acc t).aScore = acc.aScore + tokenAnswerScore e t := by
  unfold scoreStep tokenQuestionScore tokenKeywordScore tokenAnswerScore
  by_cases hlt : t.length < 2
  · have h2 : ¬(2 ≤ t.length) := by omega
    simp only [if_pos hlt]
    have hd : (decide (2 ≤ t.length)) = false := by simp [h2]
    simp [hd, h2]
  · have h2 : 2 ≤ t.length := by omega
    have hd : (decide (2 ≤ t.length)) = true := by simp [h2]
    simp only [if_neg hlt]
    refine ⟨?_, ?_, ?_⟩
    · simp [hd]
    · simp [hd]
    · rw [if_pos h2]
      rcases Nat.eq_zero_or_pos (countOccs t (lowerStr e.answer)) with hm | hm
      · simp [hm]
      · simp [hm, Nat.pos_iff_ne_zero]

theorem foldl_scoreStep (e : KEntry) (ts : List Str) (acc : ScoreAcc) :
    (ts.foldl (scoreStep e) acc).qScore =
      acc.qScore + (ts.map (tokenQuestionScore e)).sum ∧
    (ts.foldl (scoreStep e) acc).kScore =
      acc.kScore + (ts.map (tokenKeywordScore e)).sum ∧
    (ts.foldl (scoreStep e) acc).aScore =
      acc.aScore + (ts.map (tokenAnswerScore e)).sum := by
  induction ts generalizing acc with
  | nil => simp
  | cons t ts ih =>
    simp only [List.foldl_cons, List.map_cons, List.sum_cons]
    rcases ih (scoreStep e acc t) with ⟨ihq, ihk, iha⟩
    rcases scoreStep_scores e acc t with ⟨hq, hk, ha⟩
    rw [ihq, ihk, iha, hq, hk, ha]
    omega

/-- C5: the lexical scorer adds, over tokens of length at least 2,
`len x 4` to a question accumulator on question-text containment,
`len x 3` to a keyword accumulator on keyword overlap, and
`len x min(occurrences, 5)` to an answer accumulator; `totalScore` is the
sum of the three accumulators, `matchType` is the largest accumulator with
ties resolved question > keyword > answer, and all-zero accumulators give
`matchType = none` with `totalScore = 0`. -/
theorem scorer_characterization (tokens : List Str) (e : KEntry) :
    (calculateMatchScore tokens e).score =
      (tokens.map (tokenQuestionScore e)).sum + (tokens.map (tokenKeywordScore e)).sum +
        (tokens.map (tokenAnswerScore e)).sum ∧
    (calculateMatchScore tokens e).matchType =
      (if (tokens.map (tokenQuestionScore e)).sum = 0 ∧
          (tokens.map (tokenKeywordScore e)).sum = 0 ∧
          (tokens.map (tokenAnswerScore e)).sum = 0 then
        MatchType.none
       else if (tokens.map (tokenKeywordScore e)).sum ≤
            (tokens.map (tokenQuestionScore e)).sum ∧
          (tokens.map (tokenAnswerScore e)).sum ≤
            (tokens.map (tokenQuestionScore e)).sum then
        MatchType.question
       else if (tokens.map (tokenAnswerScore e)).sum ≤
            (tokens.map (tokenKeywordScore e)).sum then
        MatchType.keyword
       else MatchType.answer) := by
  rcases foldl_scoreStep e tokens ⟨0, 0, 0, []⟩ with ⟨hq, hk, ha⟩
  simp only [show (⟨0, 0, 0, []⟩ : ScoreAcc).qScore = 0 from rfl,
    show (⟨0, 0, 0, []⟩ : ScoreAcc).kScore = 0 from rfl,
    show (⟨0, 0, 0, []⟩ : ScoreAcc).aScore = 0 from rfl, Nat.zero_add] at hq hk ha
  simp only [calculateMatchScore, hq, hk, ha]
  constructor
  · split_ifs with h0 <;> first | rfl | (show 0 = _; omega)
  · split_ifs <;> first | rfl | (exfalso; omega)

theorem splitWsAux_substr (s : Str) : ∀ cur w, w ∈ splitWsAux s cur →
    w <:+: (cur.reverse ++ s) := by
  induction s with
  | nil =>
    intro cur w hw
    rw [splitWsAux] at hw
    split_ifs at hw with h
    · simp at hw
    · simp only [List.mem_singleton] at hw
      subst hw
      exact ⟨[], [], by simp⟩
  | cons c cs ih =>
    intro cur w hw
    rw [splitWsAux] at hw
    split_ifs at hw with h1 h2
    · have h3 := ih [] w hw
      simp only [List.reverse_nil, List.nil_append] at h3
      exact h3.trans ⟨cur.reverse ++ [c], [], by simp⟩
    · rcases List.mem_cons.mp hw with rfl | hw2
      · exact ⟨[], c :: cs, by simp⟩
      · have h3 := ih [] w hw2
        simp only [List.reverse_nil, List.nil_append] at h3
        exact h3.trans ⟨cur.reverse ++ [c], [], by simp⟩
    · have h3 := ih (c :: cur) w hw
      rw [List.reverse_cons, List.append_assoc] at h3
      simpa using h3

theorem splitWs_substr {s w : Str} (h : w ∈ splitWs s) : w <:+: s := by
  have h2 := splitWsAux_substr s [] w h
  simpa using h2

theorem ngram_substr {w t : Str} {k : Nat} (h : t ∈ ngrams w k) : t <:+: w := by
  unfold ngrams at h
  rcases List.mem_map.mp h with ⟨i, hi, rfl⟩
  refine ⟨w.take i, (w.drop i).drop k, ?_⟩
  rw [List.append_assoc, List.take_append_drop, List.take_append_drop]

theorem wordTokens_spec (w t : Str) (ht : t ∈ wordTokens w) :
    isStopWord t = false ∧ t <:+: w := by
  unfold wordTokens at ht
  rcases List.mem_append.mp ht with h | h
  · split_ifs at h with hs
    · simp at h
    · simp only [List.mem_singleton] at h
      subst h
      exact ⟨by simpa using hs, ⟨[], [], by simp⟩⟩
  · split_ifs at h with hc
    · rw [List.mem_filter] at h
      rcases h with ⟨hmem, hns⟩
      refine ⟨by simpa using hns, ?_⟩
      rcases List.mem_append.mp hmem with h1 | h1
      · rcases List.mem_append.mp h1 with h2 | h2
        · exact ngram_substr h2
        · exact ngram_substr h2
      · exact ngram_substr h1
    · simp at h

theorem mem_addTok {acc : List Str} {t x : Str} : x ∈ addTok acc t ↔ x ∈ acc ∨ x = t := by
  unfold addTok
  split_ifs with h
  · constructor
    · exact fun hx => Or.inl hx
    · rintro (hx | rfl)
      · exact hx
      · exact h
  · simp

theorem nodup_addTok {acc : List Str} {t : Str} (h : acc.Nodup) : (addTok acc t).Nodup := by
  unfold addTok
  split_ifs with hm
  · exact h
  · exact List.Nodup.append h (List.nodup_singleton t)
      (fun a ha hb => hm ((List.mem_singleton.mp hb) ▸ ha))

theorem mem_foldl_addTok (ts : List Str) (acc : List Str) (x : Str) :
    x ∈ ts.foldl addTok acc ↔ x ∈ acc ∨ x ∈ ts := by
  induction ts generalizing acc with
  | nil => simp
  | cons t ts ih =>
    rw [List.foldl_cons, ih, mem_addTok]
    simp only [List.mem_cons]
    tauto

theorem nodup_foldl_addTok (ts : List Str) (acc : List Str) (h : acc.Nodup) :
    (ts.foldl addTok acc).Nodup := by
  induction ts generalizing acc with
  | nil => exact h
  | cons t ts ih => exact ih _ (nodup_addTok h)

theorem mem_foldl_words (ws : List Str) (acc : List Str) (x : Str) :
    x ∈ ws.foldl (fun acc w => (wordTokens w).foldl addTok acc) acc ↔
      x ∈ acc ∨ ∃ w ∈ ws, x ∈ wordTokens w := by
  induction ws generalizing acc with
  | nil => simp
  | cons w ws ih =>
    rw [List.foldl_cons, ih, mem_foldl_addTok]
    simp only [List.mem_cons, exists_eq_or_imp]
    tauto

theorem mem_tokenize {text x : Str} :
    x ∈ tokenize text ↔ ∃ w ∈ splitWs (clean text), x ∈ wordTokens w := by
  unfold tokenize
  rw [mem_foldl_words]
  simp

theorem nodup_tokenize (text : Str) : (tokenize text).Nodup := by
  unfold tokenize
  generalize splitWs (clean text) = ws
  have h : ∀ (ws : List Str) (acc : List Str), acc.Nodup →
      (ws.foldl (fun acc w => (wordTokens w).foldl addTok acc) acc).Nodup := by
    intro ws
    induction ws with
    | nil => exact fun acc h => h
    | cons w ws ih => exact fun acc h => ih _ (nodup_foldl_addTok _ _ h)
  exact h ws [] List.nodup_nil

theorem seg_mem_ngrams {w : Str} {i k : Nat} (hk : 1 ≤ k) (h : i + k ≤ w.length) :
    (w.drop i).take k ∈ ngrams w k := by
  unfold ngrams
  exact List.mem_map.mpr ⟨i, List.mem_range.mpr (by omega), rfl⟩

/-- C6: the tokenizer lower-cases and strips punctuation (`clean`), splits
on whitespace, never emits a stop word, emits for every CJK-containing
word all contiguous substrings of lengths 2, 3 and 4 that are not stop
words, every emitted token is a substring of the normalized input, and
the output is deduplicated. -/
theorem tokenizer_rules (text : Str) :
    (tokenize text).Nodup ∧
    (∀ t ∈ tokenize text, isStopWord t = false ∧ t <:+: clean text) ∧
    (∀ w ∈ splitWs (clean text), hasCJK w = true →
      ∀ k, (k = 2 ∨ k = 3 ∨ k = 4) → ∀ i, i + k ≤ w.length →
        isStopWord ((w.drop i).take k) = false →
        (w.drop i).take k ∈ tokenize text) := by
  refine ⟨nodup_tokenize text, ?_, ?_⟩
  · intro t ht
    rcases mem_tokenize.mp ht with ⟨w, hw, hwt⟩
    rcases wordTokens_spec w t hwt with ⟨hs, hinf⟩
    exact ⟨hs, hinf.trans (splitWs_substr hw)⟩
  · intro w hw hcjk k hk i hik hns
    apply mem_tokenize.mpr
    refine ⟨w, hw, ?_⟩
    unfold wordTokens
    apply List.mem_append.mpr
    right
    rw [if_pos hcjk, List.mem_filter]
    refine ⟨?_, by simp [hns]⟩
    rcases hk with rfl | rfl | rfl
    · exact List.mem_append.mpr (Or.inl (List.mem_append.mpr
        (Or.inl (seg_mem_ngrams (by omega) hik))))
    · exact List.mem_append.mpr (Or.inl (List.mem_append.mpr
        (Or.inr (seg_mem_ngrams (by omega) hik))))
    · exact List.mem_append.mpr (Or.inr (seg_mem_ngrams (by omega) hik))

/-- C6 witness: the 2-gram at offset 2 of the only word of a concrete
query is emitted by the tokenizer. -/
theorem tokenizer_rules_witness :
    ((strL "怎麼建立課程").drop 2).take 2 ∈ tokenize (strL "怎麼建立課程") :=
  (tokenizer_rules (strL "怎麼建立課程")).2.2 (strL "怎麼建立課程") (by decide) (by decide)
    2 (Or.inl rfl) 2 (by decide) (by decide)

/-- C9: `answerQuestion` never propagates an error to its caller: with
the group lookup resolved, it always returns a result; the returned
result does not depend on the usage-counter oracle (increments are
best-effort); a failing generator yields the conservative cannot-answer
result; and a failing knowledge-entry load with an empty vector path
likewise yields the conservative result. -/
theorem answer_question_error_containment (o : KnowledgeOracles) (q : Str) (b : Bool)
    (g : Option GroupKnowledge) (hg : o.groupLookup = .ok g) :
    (∃ r, answerQuestionE o q b = .ok r) ∧
    (∀ u, answerQuestionE { o with usageUpdate := u } q b = answerQuestionE o q b) ∧
    ((∀ es, o.generate es = .error ()) → ∀ cats,
      answerQuestionBody o q cats = noAnswer) ∧
    (∀ cats, vectorResultsOf o cats = [] → o.findEntries cats = .error () →
      answerQuestionBody o q cats = noAnswer) := by
  refine ⟨?_, ?_, ?_, ?_⟩
  · unfold answerQuestionE
    cases b
    · exact ⟨_, rfl⟩
    · rw [if_pos rfl, hg]
      cases g with
      | none => exact ⟨_, rfl⟩
      | some g2 =>
        cases hae : g2.autoReplyEnabled <;> simp [hae]
  · intro u
    rfl
  · intro hgen cats
    unfold answerQuestionBody tryBody
    dsimp only
    split_ifs with hv
    · unfold finishGeneration
      rw [hgen]
    · cases hfe : o.findEntries cats with
      | error e => rfl
      | ok entries =>
        dsimp only
        split_ifs with he
        · rfl
        · unfold finishGeneration
          rw [hgen]
  · intro cats hv hfe
    unfold answerQuestionBody tryBody
    dsimp only
    rw [hv]
    simp only [List.length_nil, gt_iff_lt, lt_irrefl, if_false]
    rw [hfe]

/-- C9 witness: a concrete oracle set with failing generator and failing
usage counter still produces a returned result. -/
theorem answer_question_error_containment_witness :
    ∃ r, answerQuestionE
      ⟨.ok none, .ok 0, fun _ => .error (), fun _ => .ok [], fun _ => .error (),
        fun _ => .error ()⟩ (strL "q") true = .ok r :=
  (answer_question_error_containment
    ⟨.ok none, .ok 0, fun _ => .error (), fun _ => .ok [], fun _ => .error (),
      fun _ => .error ()⟩ (strL "q") true none rfl).1

theorem analysisPhase_mentioned (env : AutoReplyEnv) (question : Str) (priv : Bool) :
    (analysisPhase env question priv).botNameMentioned =
      checkBotNameMentioned question env.settings.botName := by
  unfold analysisPhase
  dsimp only
  split_ifs <;> rfl

theorem answeredParts_iff (env : AutoReplyEnv) (qs : List Str) :
    0 < (answeredPartsOf env qs).length ↔
      ∃ q ∈ qs, ∃ r, env.search q = some r ∧
        env.settings.confidenceThreshold ≤ r.confidence := by
  rw [List.length_pos_iff_exists_mem]
  unfold answeredPartsOf
  constructor
  · rintro ⟨x, hx⟩
    rcases List.mem_filterMap.mp hx with ⟨q, hq, hfq⟩
    refine ⟨q, hq, ?_⟩
    cases hs : env.search q with
    | none => rw [hs] at hfq; simp at hfq
    | some r =>
      rw [hs] at hfq
      dsimp only at hfq
      split_ifs at hfq with hc
      all_goals exact ⟨r, rfl, hc⟩
  · rintro ⟨q, hq, r, hr, hc⟩
    refine ⟨⟨q, (if r.generatedAnswer.isEmpty then r.entryAnswer else r.generatedAnswer),
      r.entryId, r.confidence⟩, List.mem_filterMap.mpr ⟨q, hq, ?_⟩⟩
    rw [hr]
    dsimp only
    rw [if_pos hc]

theorem answeredParts_nil (env : AutoReplyEnv) (qs : List Str)
    (h : ∀ q ∈ qs, ∀ r, env.search q = some r →
      r.confidence < env.settings.confidenceThreshold) :
    answeredPartsOf env qs = [] := by
  unfold answeredPartsOf
  rw [List.filterMap_eq_nil_iff]
  intro q hq
  cases hs : env.search q with
  | none => rfl
  | some r =>
    have hlt := h q hq r hs
    dsimp only
    rw [if_neg (not_le.mpr hlt)]

/-- C1: for a processed text message (group flag on, global toggle on,
the processing gate passed, a reply token present), the engine sends a
reply exactly when some resolved question has a knowledge match at or
above the confidence threshold, or the bot name was mentioned, or the
conversation is a direct chat; and a reply sent with zero answered
questions is exactly the configured not-found fallback text. -/
theorem reply_decision_rule (env : AutoReplyEnv) (question : Str) (isPrivateChat : Bool)
    (tk : Str)
    (hGroup : env.group.elim false (fun g => !g.autoReplyEnabled) = false)
    (hGlobal : env.settings.autoReply = true)
    (hProcess : (analysisPhase env question isPrivateChat).shouldProcess = true) :
    ((handleAutoReply env question isPrivateChat (some tk)).reply.isSome = true ↔
      ((∃ q ∈ questionsToSearch env question isPrivateChat, ∃ r, env.search q = some r ∧
          env.settings.confidenceThreshold ≤ r.confidence) ∨
        checkBotNameMentioned question env.settings.botName = true ∨ isPrivateChat = true)) ∧
    (∀ t, (handleAutoReply env question isPrivateChat (some tk)).reply = some t →
      (∀ q ∈ questionsToSearch env question isPrivateChat, ∀ r, env.search q = some r →
        r.confidence < env.settings.confidenceThreshold) →
      t = notFoundReplyOf env.settings) := by
  have hstep : handleAutoReply env question isPrivateChat (some tk) =
      replyPhase env question isPrivateChat (some tk) := by
    unfold handleAutoReply
    rw [if_neg (by rw [hGroup]; exact Bool.false_ne_true)]
    dsimp only
    rw [hGlobal, hProcess]
    rfl
  rw [hstep]
  unfold replyPhase
  dsimp only
  rw [analysisPhase_mentioned]
  constructor
  · by_cases hA : (answeredPartsOf env (questionsToSearch env question isPrivateChat)).length > 0
    · rw [if_pos (by simp [hA]), dif_pos hA]
      simp only [Option.isSome_some, true_iff]
      exact Or.inl ((answeredParts_iff env _).mp hA)
    · rw [dif_neg hA]
      by_cases hm : checkBotNameMentioned question env.settings.botName = true
      · rw [if_pos (by simp [hm]), if_pos (by simp [hm])]
        simp only [Option.isSome_some, true_iff]
        exact Or.inr (Or.inl hm)
      · by_cases hpriv : isPrivateChat = true
        · rw [if_pos (by simp [hpriv]), if_pos (by simp [hpriv])]
          simp only [Option.isSome_some, true_iff]
          exact Or.inr (Or.inr hpriv)
        · have hAf : (decide ((answeredPartsOf env
              (questionsToSearch env question isPrivateChat)).length > 0)) = false := by
            simpa using hA
          have hmf : checkBotNameMentioned question env.settings.botName = false := by
            simpa using hm
          have hpf : isPrivateChat = false := by
            simpa using hpriv
          rw [if_neg (by rw [hAf, hmf, hpf]; simp)]
          simp only [Option.isSome_none, Bool.false_eq_true, false_iff]
          rintro (hex | hbm | hpv)
          · exact hA ((answeredParts_iff env _).mpr hex)
          · exact hm hbm
          · exact hpriv hpv
  · intro t ht hnone
    have hnil : answeredPartsOf env (questionsToSearch env question isPrivateChat) = [] :=
      answeredParts_nil env _ hnone
    have hA : ¬(answeredPartsOf env (questionsToSearch env question isPrivateChat)).length > 0 := by
      rw [hnil]
      simp
    rw [dif_neg hA] at ht
    by_cases hsr : ((decide ((answeredPartsOf env
        (questionsToSearch env question isPrivateChat)).length > 0) ||
        checkBotNameMentioned question env.settings.botName) || isPrivateChat) = true
    · rw [if_pos hsr] at ht
      split_ifs at ht with hmp
      simpa using ht.symm
    · rw [if_neg hsr] at ht
      simp at ht

/-- Concrete environment for the decision-rule witness: defaults on, no
bot name configured, knowledge lookup finds nothing. -/
def envW : AutoReplyEnv :=
  ⟨⟨true, none, 50, none⟩, none, ⟨false, [], 0, [], SentimentT.neutral⟩, fun _ => none⟩

/-- C1 witness: in a direct chat with no knowledge match the engine
replies, and the reply is the fallback text. -/
theorem reply_decision_rule_witness :
    (((handleAutoReply envW (strL "hi") true (some (strL "tok"))).reply.isSome = true) ↔
      ((∃ q ∈ questionsToSearch envW (strL "hi") true, ∃ r,
          envW.search q = some r ∧ envW.settings.confidenceThreshold ≤ r.confidence) ∨
        checkBotNameMentioned (strL "hi") envW.settings.botName = true ∨ true = true)) ∧
    (∀ t, (handleAutoReply envW (strL "hi") true (some (strL "tok"))).reply = some t →
      (∀ q ∈ questionsToSearch envW (strL "hi") true, ∀ r, envW.search q = some r →
        r.confidence < envW.settings.confidenceThreshold) →
      t = notFoundReplyOf envW.settings) :=
  reply_decision_rule envW (strL "hi") true (strL "tok") rfl rfl rfl

/-- C8 counterexample: with the per-group auto-reply flag off, a message
whose conversation analysis reports an unanswered question at confidence
100 (threshold 50) produces NO tracked issue (and no reply): the engine
returns before issue creation. -/
theorem group_disable_counterexample :
    handleAutoReply
      ⟨⟨true, none, 50, none⟩, some ⟨none, false⟩,
        ⟨true, [strL "q1"], 100, strL "s", SentimentT.neutral⟩, fun _ => none⟩
      (strL "hello") false (some (strL "tk")) = noOutcome ∧
    (⟨true, [strL "q1"], 100, strL "s", SentimentT.neutral⟩ :
      ConvAnalysis).hasUnansweredQuestion = true ∧
    ((50 : Int) ≤ (⟨true, [strL "q1"], 100, strL "s", SentimentT.neutral⟩ :
      ConvAnalysis).confidence) := by
  refine ⟨rfl, rfl, by decide⟩

/-- C8 corrected: a disabled per-group flag short-circuits the engine
entirely — no reply and also no issue; it is the global auto-reply
setting that, when disabled, still creates a (non-replied) issue exactly
for an above-threshold detected question while never replying. -/
theorem auto_reply_disable_rule (env : AutoReplyEnv) (question : Str)
    (isPrivateChat : Bool) (tk : Option Str) :
    ((env.group.elim false (fun g => !g.autoReplyEnabled)) = true →
      handleAutoReply env question isPrivateChat tk = noOutcome) ∧
    ((env.group.elim false (fun g => !g.autoReplyEnabled)) = false →
      env.settings.autoReply = false →
      (handleAutoReply env question isPrivateChat tk).reply = none ∧
      ((handleAutoReply env question isPrivateChat tk).issue.isSome = true ↔
        ((analysisPhase env question isPrivateChat).isQuestion = true ∧
          env.settings.confidenceThreshold ≤
            (analysisPhase env question isPrivateChat).questionConfidence)) ∧
      (∀ i, (handleAutoReply env question isPrivateChat tk).issue = some i →
        i.autoReplied = false)) := by
  constructor
  · intro hd
    unfold handleAutoReply
    rw [if_pos hd]
  · intro hd hoff
    have hstep : handleAutoReply env question isPrivateChat tk =
        (if (analysisPhase env question isPrivateChat).isQuestion &&
            env.settings.confidenceThreshold ≤
              (analysisPhase env question isPrivateChat).questionConfidence then
          { noOutcome with
            issue := some ⟨(analysisPhase env question isPrivateChat).questionSummary,
              (analysisPhase env question isPrivateChat).sentiment, false, none, none⟩ }
        else noOutcome) := by
      unfold handleAutoReply
      rw [if_neg (by rw [hd]; exact Bool.false_ne_true)]
      dsimp only
      rw [hoff]
      rfl
    rw [hstep]
    split_ifs with hq
    · simp only [Bool.and_eq_true, decide_eq_true_eq] at hq
      refine ⟨rfl, iff_of_true rfl hq, ?_⟩
      · intro i hi
        simp only [Option.some.injEq] at hi
        rw [← hi]
    · simp only [Bool.and_eq_true, decide_eq_true_eq] at hq
      refine ⟨rfl, iff_of_false Bool.false_ne_true hq, ?_⟩
      · intro i hi
        simp [noOutcome] at hi

/-- C8 amended witness: global toggle off, group flag on, detected
question at confidence 80 with threshold 50 — no reply, an issue exists,
and it is marked not auto-replied. -/
theorem auto_reply_disable_rule_witness :
    (handleAutoReply
      ⟨⟨false, none, 50, none⟩, none, ⟨true, [], 80, [], SentimentT.negative⟩,
        fun _ => none⟩ (strL "hi") false none).reply = none ∧
    (((handleAutoReply
      ⟨⟨false, none, 50, none⟩, none, ⟨true, [], 80, [], SentimentT.negative⟩,
        fun _ => none⟩ (strL "hi") false none).issue.isSome = true) ↔
      ((analysisPhase
        ⟨⟨false, none, 50, none⟩, none, ⟨true, [], 80, [], SentimentT.negative⟩,
          fun _ => none⟩ (strL "hi") false).isQuestion = true ∧
        (50 : Int) ≤ (analysisPhase
          ⟨⟨false, none, 50, none⟩, none, ⟨true, [], 80, [], SentimentT.negative⟩,
            fun _ => none⟩ (strL "hi") false).questionConfidence)) ∧
    (∀ i, (handleAutoReply
      ⟨⟨false, none, 50, none⟩, none, ⟨true, [], 80, [], SentimentT.negative⟩,
        fun _ => none⟩ (strL "hi") false none).issue = some i → i.autoReplied = false) :=
  (auto_reply_disable_rule
    ⟨⟨false, none, 50, none⟩, none, ⟨true, [], 80, [], SentimentT.negative⟩,
      fun _ => none⟩ (strL "hi") false none).2 rfl rfl

/-- C10: when a message with the same LINE message id is already stored,
the handler skips everything itself: the message table is unchanged and
no reply, no auto-reply log and no issue is produced. -/
theorem duplicate_message_rule (env : AutoReplyEnv) (ev : LineEvent) (st : DBState)
    (h : ((st.messages.map (fun m => m.lineMessageId)).contains ev.messageId) = true) :
    (handleMessageEvent env ev st).1.messages = st.messages ∧
    (handleMessageEvent env ev st).2 = noOutcome := by
  unfold handleMessageEvent
  cases hu : ev.userId with
  | none => exact ⟨rfl, rfl⟩
  | some uid =>
    dsimp only
    rw [if_pos h]
    exact ⟨rfl, rfl⟩

/-- C10 witness: a concrete duplicate delivery is skipped. -/
theorem duplicate_message_rule_witness :
    (handleMessageEvent envW
      ⟨MsgSource.user, some (strL "u1"), strL "m1", MsgKind.text (strL "hello"), none⟩
      ⟨[], [], [⟨strL "m1", none, strL "g1"⟩]⟩).1.messages =
        [⟨strL "m1", none, strL "g1"⟩] ∧
    (handleMessageEvent envW
      ⟨MsgSource.user, some (strL "u1"), strL "m1", MsgKind.text (strL "hello"), none⟩
      ⟨[], [], [⟨strL "m1", none, strL "g1"⟩]⟩).2 = noOutcome :=
  duplicate_message_rule envW
    ⟨MsgSource.user, some (strL "u1"), strL "m1", MsgKind.text (strL "hello"), none⟩
    ⟨[], [], [⟨strL "m1", none, strL "g1"⟩]⟩ (by decide)

end MCB
